import Mathlib

/-!
Verification of the watchcow `fpkgen` image core: magic-byte format
detection (`detectFormat`), the ICO container parser (`decodeICO`), the
embedded-image dispatcher (`decodeICOImage`), the BMP bit-plane decoder
(`decodeICOBMP` and its per-depth row decoders), and the asset path
resolver (`resolveFilePath`).

The Go code is shallowly embedded: byte buffers are `List Nat` (each
element a byte value), Go `uint16`/`uint32` reads become little-endian
`Nat` arithmetic, Go `int32` fields are decoded to `Int` with explicit
two's-complement conversion, and Go's `/` on `int` (truncation toward
zero) is `Int.tdiv`.  Fallible Go functions return `GoResult`; a Go slice
expression whose bounds can exceed the buffer is modelled by
`goSlice`/`goSliceFrom`, which return `none` exactly when Go would panic
with a slice-bounds error.  Slice expressions that sit directly under a
length check making them in-bounds are modelled by plain
`List.drop`/`List.take`, which agree with Go there.
-/

/-- A byte buffer: list of byte values (each `< 256` in real inputs). -/
abbrev Bytes := List Nat

/-- `binary.LittleEndian.Uint16(data[i:i+2])`. -/
def le16 (d : Bytes) (i : Nat) : Nat :=
  d.getD i 0 + 256 * d.getD (i + 1) 0

/-- `binary.LittleEndian.Uint32(data[i:i+4])`. -/
def le32 (d : Bytes) (i : Nat) : Nat :=
  le16 d i + 65536 * le16 d (i + 2)

/-- Reinterpret a `uint32` bit pattern as Go `int32` (two's complement). -/
def toInt32 (n : Nat) : Int :=
  if n < 2 ^ 31 then (n : Int) else (n : Int) - 2 ^ 32

/-- Go slice `d[i:j]`: `none` models the Go panic when the bounds are bad. -/
def goSlice (d : Bytes) (i j : Nat) : Option Bytes :=
  if i ≤ j ∧ j ≤ d.length then some ((d.take j).drop i) else none

/-- Go slice `d[i:]`: `none` models the Go panic when `i > len(d)`. -/
def goSliceFrom (d : Bytes) (i : Nat) : Option Bytes :=
  if i ≤ d.length then some (d.drop i) else none

/-- `bytes.HasPrefix(data, pre)` (first argument is the prefix). -/
def startsWithBytes : Bytes → Bytes → Bool
  | [], _ => true
  | _ :: _, [] => false
  | a :: as, b :: bs => a == b && startsWithBytes as bs

/-- One error value per `fmt.Errorf` site in the decoder. -/
inductive IcoError where
  | tooShortForHeader
  | reservedNonzero (v : Nat)
  | typeNot1 (v : Nat)
  | noImages
  | tooShortForDirectory
  | noValidEntries
  | imageDataTooShort
  | pngDecodeFailed
  | bmpTooShortForHeader
  | unsupportedHeaderSize (v : Nat)
  | compressedNotSupported (v : Nat)
  | tooShortForPalette
  | unsupportedBitDepth (v : Nat)
deriving DecidableEq

/-- The spec's `MalformedHeader` family: the four header-validation
errors produced by the first stage of `decodeICO` (buffer shorter than
6 bytes, nonzero reserved field, type ≠ 1, count = 0). -/
def IcoError.isMalformedHeader : IcoError → Bool
  | .tooShortForHeader => true
  | .reservedNonzero _ => true
  | .typeNot1 _ => true
  | .noImages => true
  | _ => false

/-- Outcome of a Go function returning `(T, error)`, with `panic`
as a third, abnormal outcome. -/
inductive GoResult (α : Type) where
  | ok : α → GoResult α
  | err : IcoError → GoResult α
  | panic : GoResult α
deriving DecidableEq

/-- A `color.RGBA` value. -/
structure RGBA where
  R : Nat
  G : Nat
  B : Nat
  A : Nat
deriving DecidableEq

/-- The zero value every pixel of a fresh `image.NewRGBA` holds. -/
def zeroRGBA : RGBA := ⟨0, 0, 0, 0⟩

/-- An RGBA image as rows (top-down) of pixels (left-to-right). -/
abbrev Image := List (List RGBA)

/-- `image.NewRGBA(image.Rect(0, 0, width, height))`: a zero-filled
grid; non-positive dimensions give an empty pixel grid, matching the
fact that the Go loops never touch such an image. -/
def newRGBA (width height : Int) : Image :=
  List.replicate height.toNat (List.replicate width.toNat zeroRGBA)

/-- `img.SetRGBA(x, y, c)`: silently ignores out-of-range coordinates
(as Go's bounds test against the image rectangle does; `List.set` is a
no-op past the end). -/
def setRGBA (img : Image) (x y : Int) (c : RGBA) : Image :=
  if 0 ≤ x ∧ 0 ≤ y then
    img.set y.toNat ((img.getD y.toNat []).set x.toNat c)
  else img

/-- Read `data[i]` at a (possibly `Int`-typed) index.  Used only where
the Go code has already established the index is in bounds, so the
`0` default is never observed on Go-reachable inputs. -/
def byteAt (data : Bytes) (i : Int) : Nat :=
  if 0 ≤ i then data.getD i.toNat 0 else 0

/-- Pixel at column `x`, row `y` (zero if out of range). -/
def getPixel (img : Image) (x y : Nat) : RGBA :=
  (img.getD y []).getD x zeroRGBA

/-- `icoEntry`: a 16-byte ICO directory entry. -/
structure icoEntry where
  Width : Nat
  Height : Nat
  ColorCount : Nat
  Reserved : Nat
  Planes : Nat
  BitCount : Nat
  Size : Nat
  Offset : Nat
deriving DecidableEq

/-- The all-zero directory entry (used as a `getD` fallback). -/
def entryZero : icoEntry := ⟨0, 0, 0, 0, 0, 0, 0, 0⟩

/-- `getActualWidth`: width with the 0 ⇒ 256 substitution. -/
def icoEntry.getActualWidth (e : icoEntry) : Nat :=
  if e.Width = 0 then 256 else e.Width

/-- `getActualHeight`: height with the 0 ⇒ 256 substitution. -/
def icoEntry.getActualHeight (e : icoEntry) : Nat :=
  if e.Height = 0 then 256 else e.Height

/-- `resolution`: total pixel count used for best-entry comparison. -/
def icoEntry.resolution (e : icoEntry) : Nat :=
  e.getActualWidth * e.getActualHeight

/-- `parseICOEntry`: parse a 16-byte directory entry. -/
def parseICOEntry (d : Bytes) : icoEntry :=
  { Width := d.getD 0 0
    Height := d.getD 1 0
    ColorCount := d.getD 2 0
    Reserved := d.getD 3 0
    Planes := le16 d 4
    BitCount := le16 d 6
    Size := le32 d 8
    Offset := le32 d 12 }

/-- The `count` directory entries parsed from their 16-byte slots
(each slot is in bounds once the directory-size check has passed). -/
def parsedEntries (data : Bytes) (count : Nat) : List icoEntry :=
  (List.range count).map (fun i => parseICOEntry ((data.drop (6 + i * 16)).take 16))

/-- One step of the best-entry scan in `decodeICO`: skip entries with a
zero offset or size or whose span exceeds the buffer, otherwise keep
the strictly larger resolution (ties keep the earlier entry). -/
def considerEntry (dataLen : Nat) (st : Option icoEntry × Nat) (e : icoEntry) :
    Option icoEntry × Nat :=
  if e.Offset = 0 ∨ e.Size = 0 then st
  else if e.Offset + e.Size > dataLen then st
  else
    match st with
    | (none, _) => (some e, e.resolution)
    | (some b, br) => if e.resolution > br then (some e, e.resolution) else (some b, br)

/-- An entry survives the skip checks of `decodeICO`. -/
def survives (dataLen : Nat) (e : icoEntry) : Prop :=
  e.Offset ≠ 0 ∧ e.Size ≠ 0 ∧ e.Offset + e.Size ≤ dataLen

instance (dataLen : Nat) (e : icoEntry) : Decidable (survives dataLen e) := by
  unfold survives; infer_instance

/-- `entries[i]` is a surviving entry of maximal resolution, and the
earliest one among the surviving entries of that resolution. -/
def isBestAt (dataLen : Nat) (es : List icoEntry) (i : Nat) : Prop :=
  i < es.length ∧ survives dataLen (es.getD i entryZero) ∧
    (∀ j, j < es.length → survives dataLen (es.getD j entryZero) →
      (es.getD j entryZero).resolution ≤ (es.getD i entryZero).resolution) ∧
    (∀ j, j < i → survives dataLen (es.getD j entryZero) →
      (es.getD j entryZero).resolution < (es.getD i entryZero).resolution)

instance (dataLen : Nat) (es : List icoEntry) (i : Nat) :
    Decidable (isBestAt dataLen es i) := by
  unfold isBestAt; infer_instance

/-! ## BMP row decoders (`decodeICOBMP1` … `decodeICOBMP32`)

Each Go decoder is the same two-level loop: an outer loop over output
rows `y` (reading source row `height-1-y`, since BMP rows are stored
bottom-up) that `break`s as soon as the row's required byte span
overruns the buffer, and an inner loop over columns `x` writing one
pixel.  `bmpRows` is that shared outer loop; the per-depth row stride,
span and pixel body are the parameters. -/

/-- Row stride of the 1-bit decoder: `((width+31)/32)*4`. -/
def rowSize1 (width : Int) : Int := Int.tdiv (width + 31) 32 * 4

/-- Row stride of the 4-bit decoder: `((width*4+31)/32)*4`. -/
def rowSize4 (width : Int) : Int := Int.tdiv (width * 4 + 31) 32 * 4

/-- Row stride of the 8-bit decoder: `((width+3)/4)*4`. -/
def rowSize8 (width : Int) : Int := Int.tdiv (width + 3) 4 * 4

/-- Row stride of the 24-bit decoder: `((width*3+3)/4)*4`. -/
def rowSize24 (width : Int) : Int := Int.tdiv (width * 3 + 3) 4 * 4

/-- Row stride of the 32-bit decoder: `width*4` (always aligned). -/
def rowSize32 (width : Int) : Int := width * 4

/-- The shared outer row loop: `n` rows remain, `y` is the next output
row; stops (leaving `img` as is) when `rowOffset + span > len(data)`,
exactly Go's `break`. -/
def bmpRows (rowStep : Int → Nat → Image → Image) (span rowSize height : Int)
    (dataLen : Nat) : Nat → Nat → Image → Image
  | 0, _, img => img
  | Nat.succ n, y, img =>
    let rowOffset : Int := (height - 1 - (y : Int)) * rowSize
    if rowOffset + span > (dataLen : Int) then img
    else bmpRows rowStep span rowSize height dataLen n (y + 1) (rowStep rowOffset y img)

/-- Palette index of the 1-bit pixel at column `x` of the row starting
at `rowOffset` (MSB-first bit within its byte). -/
def pixelValue1 (data : Bytes) (rowOffset : Int) (x : Nat) : Nat :=
  (byteAt data (rowOffset + (x / 8 : Nat)) >>> (7 - x % 8)) &&& 1

/-- Palette index of the 4-bit pixel at column `x` (high nibble first). -/
def pixelValue4 (data : Bytes) (rowOffset : Int) (x : Nat) : Nat :=
  if x % 2 = 0 then (byteAt data (rowOffset + (x / 2 : Nat)) >>> 4) &&& 15
  else byteAt data (rowOffset + (x / 2 : Nat)) &&& 15

/-- Palette index of the 8-bit pixel at column `x` (one byte each). -/
def pixelValue8 (data : Bytes) (rowOffset : Int) (x : Nat) : Nat :=
  byteAt data (rowOffset + (x : Int))

/-- The shared palette-indexed pixel write: look up `pixelValue` in the
B-G-R-A palette, forcing alpha opaque; out-of-range palette indices are
silently skipped (the `paletteIdx+3 < len(palette)` guard). -/
def palettePx (palette : Bytes) (pixelValue : Nat) (x y : Nat) (img : Image) : Image :=
  let paletteIdx := pixelValue * 4
  if paletteIdx + 3 < palette.length then
    setRGBA img x y
      { R := palette.getD (paletteIdx + 2) 0
        G := palette.getD (paletteIdx + 1) 0
        B := palette.getD paletteIdx 0
        A := 255 }
  else img

/-- Inner column loop of the 1-bit decoder. -/
def bmp1Row (data palette : Bytes) (width : Int) (rowOffset : Int) (y : Nat)
    (img : Image) : Image :=
  (List.range width.toNat).foldl
    (fun im x => palettePx palette (pixelValue1 data rowOffset x) x y im) img

/-- Inner column loop of the 4-bit decoder. -/
def bmp4Row (data palette : Bytes) (width : Int) (rowOffset : Int) (y : Nat)
    (img : Image) : Image :=
  (List.range width.toNat).foldl
    (fun im x => palettePx palette (pixelValue4 data rowOffset x) x y im) img

/-- Inner column loop of the 8-bit decoder. -/
def bmp8Row (data palette : Bytes) (width : Int) (rowOffset : Int) (y : Nat)
    (img : Image) : Image :=
  (List.range width.toNat).foldl
    (fun im x => palettePx palette (pixelValue8 data rowOffset x) x y im) img

/-- Inner column loop of the 24-bit decoder: 3 bytes per pixel, B-G-R,
alpha forced opaque. -/
def bmp24Row (data : Bytes) (width : Int) (rowOffset : Int) (y : Nat)
    (img : Image) : Image :=
  (List.range width.toNat).foldl
    (fun im x =>
      let pixelOffset := rowOffset + (x : Int) * 3
      setRGBA im x y
        { R := byteAt data (pixelOffset + 2)
          G := byteAt data (pixelOffset + 1)
          B := byteAt data pixelOffset
          A := 255 }) img

/-- Inner column loop of the 32-bit decoder: 4 bytes per pixel, B-G-R-A,
alpha taken as-is. -/
def bmp32Row (data : Bytes) (width : Int) (rowOffset : Int) (y : Nat)
    (img : Image) : Image :=
  (List.range width.toNat).foldl
    (fun im x =>
      let pixelOffset := rowOffset + (x : Int) * 4
      setRGBA im x y
        { R := byteAt data (pixelOffset + 2)
          G := byteAt data (pixelOffset + 1)
          B := byteAt data pixelOffset
          A := byteAt data (pixelOffset + 3) }) img

/-- `decodeICOBMP1`: 1-bit (monochrome) BMP rows; the Go function's
`error` result is the second component (always `nil`). -/
def decodeICOBMP1 (img : Image) (data : Bytes) (width height : Int)
    (palette : Bytes) : Image × Option IcoError :=
  (bmpRows (bmp1Row data palette width) (rowSize1 width) (rowSize1 width) height
    data.length height.toNat 0 img, none)

/-- `decodeICOBMP4`: 4-bit (16 color) BMP rows. -/
def decodeICOBMP4 (img : Image) (data : Bytes) (width height : Int)
    (palette : Bytes) : Image × Option IcoError :=
  (bmpRows (bmp4Row data palette width) (rowSize4 width) (rowSize4 width) height
    data.length height.toNat 0 img, none)

/-- `decodeICOBMP8`: 8-bit (256 color) BMP rows; the row-span check is
`rowOffset + width > len(data)`. -/
def decodeICOBMP8 (img : Image) (data : Bytes) (width height : Int)
    (palette : Bytes) : Image × Option IcoError :=
  (bmpRows (bmp8Row data palette width) width (rowSize8 width) height
    data.length height.toNat 0 img, none)

/-- `decodeICOBMP24`: 24-bit BMP rows; span check `rowOffset + width*3`. -/
def decodeICOBMP24 (img : Image) (data : Bytes) (width height : Int) :
    Image × Option IcoError :=
  (bmpRows (bmp24Row data width) (width * 3) (rowSize24 width) height
    data.length height.toNat 0 img, none)

/-- `decodeICOBMP32`: 32-bit BMP rows; span check `rowOffset + width*4`. -/
def decodeICOBMP32 (img : Image) (data : Bytes) (width height : Int) :
    Image × Option IcoError :=
  (bmpRows (bmp32Row data width) (width * 4) (rowSize32 width) height
    data.length height.toNat 0 img, none)

/-- Convert a row decoder's `(img, err)` pair into the enclosing
function's `(image.Image, error)` result. -/
def bmpResult : Image × Option IcoError → GoResult Image
  | (img, none) => .ok img
  | (_, some e) => .err e

/-! ## `decodeICOBMP`, `decodeICOImage`, `decodeICO` -/

/-- Palette entry count: `2^bitCount`, reduced to the directory entry's
`colorCount` when that is nonzero and smaller. -/
def paletteSizeOf (entry : icoEntry) (bitCount : Nat) : Nat :=
  if 0 < entry.ColorCount ∧ entry.ColorCount < 2 ^ bitCount then entry.ColorCount
  else 2 ^ bitCount

/-- The width `decodeICOBMP` uses: the DIB header's `int32` width, or
the entry's declared width (0 ⇒ 256) when the header field is zero. -/
def bmpWidth (data : Bytes) (entry : icoEntry) : Int :=
  if toInt32 (le32 data 4) = 0 then (entry.getActualWidth : Int)
  else toInt32 (le32 data 4)

/-- The height `decodeICOBMP` uses: the DIB header's `int32` height
halved (ICO stores the doubled height including the AND mask), or the
entry's declared height (0 ⇒ 256) when that halved value is zero. -/
def bmpHeight (data : Bytes) (entry : icoEntry) : Int :=
  if Int.tdiv (toInt32 (le32 data 8)) 2 = 0 then (entry.getActualHeight : Int)
  else Int.tdiv (toInt32 (le32 data 8)) 2

/-- `decodeICOBMP`: decode a headerless DIB embedded in an ICO entry.
Go's single `switch bitCount` is split here by the `bitCount ≤ 8` guard
under which the palette was read; the cases agree because 1/4/8 are ≤ 8
and 24/32 are not.  In the 24/32-bit cases the Go code slices
`data[pixelOffset:]` with `pixelOffset = headerSize` without a bounds
check, hence `goSliceFrom`; in the ≤ 8 cases the palette length check
has already ensured `headerSize + paletteBytes ≤ len(data)`. -/
def decodeICOBMP (data : Bytes) (entry : icoEntry) : GoResult Image :=
  if data.length < 40 then .err .bmpTooShortForHeader
  else if le32 data 0 < 40 then .err (.unsupportedHeaderSize (le32 data 0))
  else
    let headerSize := le32 data 0
    let bitCount := le16 data 14
    let compression := le32 data 16
    let width : Int := bmpWidth data entry
    let height : Int := bmpHeight data entry
    if compression ≠ 0 then .err (.compressedNotSupported compression)
    else if bitCount ≤ 8 then
      let paletteBytes := paletteSizeOf entry bitCount * 4
      if data.length < headerSize + paletteBytes then .err .tooShortForPalette
      else
        let palette := (data.drop headerSize).take paletteBytes
        let pixelData := data.drop (headerSize + paletteBytes)
        let img := newRGBA width height
        match bitCount with
        | 1 => bmpResult (decodeICOBMP1 img pixelData width height palette)
        | 4 => bmpResult (decodeICOBMP4 img pixelData width height palette)
        | 8 => bmpResult (decodeICOBMP8 img pixelData width height palette)
        | _ => .err (.unsupportedBitDepth bitCount)
    else
      let img := newRGBA width height
      match bitCount with
      | 24 =>
        match goSliceFrom data headerSize with
        | none => .panic
        | some pixelData => bmpResult (decodeICOBMP24 img pixelData width height)
      | 32 =>
        match goSliceFrom data headerSize with
        | none => .panic
        | some pixelData => bmpResult (decodeICOBMP32 img pixelData width height)
      | _ => .err (.unsupportedBitDepth bitCount)

/-- The 8-byte PNG signature. -/
def magicPNG : Bytes := [0x89, 0x50, 0x4E, 0x47, 0x0D, 0x0A, 0x1A, 0x0A]

/-- The best-entry scan of `decodeICO`: the fold of `considerEntry`
from Go's initial state (`bestEntry = nil`, `bestResolution = 0`). -/
def bestFold (dataLen : Nat) (es : List icoEntry) : Option icoEntry × Nat :=
  es.foldl (considerEntry dataLen) (none, 0)

/-- Shape of an image: `h` rows, each of width `w` (index form). -/
def imgShape (img : Image) (w h : Nat) : Prop :=
  img.length = h ∧ ∀ y, y < h → (img.getD y []).length = w

/-- `decodeICOImage`: dispatch a selected entry's bytes to the PNG
decoder (an external collaborator, passed in as `pngDecode`) or to the
BMP decoder. -/
def decodeICOImage (pngDecode : Bytes → Option Image) (data : Bytes)
    (entry : icoEntry) : GoResult Image :=
  if data.length < 4 then .err .imageDataTooShort
  else if startsWithBytes magicPNG data then
    match pngDecode data with
    | some img => .ok img
    | none => .err .pngDecodeFailed
  else decodeICOBMP data entry

/-- `decodeICO`: parse header and directory, select the surviving entry
of maximal resolution (earliest wins ties), and decode it. -/
def decodeICO (pngDecode : Bytes → Option Image) (data : Bytes) : GoResult Image :=
  if data.length < 6 then .err .tooShortForHeader
  else if le16 data 0 ≠ 0 then .err (.reservedNonzero (le16 data 0))
  else if le16 data 2 ≠ 1 then .err (.typeNot1 (le16 data 2))
  else if le16 data 4 = 0 then .err .noImages
  else if data.length < 6 + le16 data 4 * 16 then .err .tooShortForDirectory
  else
    match bestFold data.length (parsedEntries data (le16 data 4)) with
    | (none, _) => .err .noValidEntries
    | (some best, _) =>
      match goSlice data best.Offset (best.Offset + best.Size) with
      | none => .panic
      | some imageData => decodeICOImage pngDecode imageData best

/-! ## Format detector -/

/-- `ImageFormat`: the closed enumeration of recognized formats. -/
inductive ImageFormat where
  | FormatUnknown
  | FormatPNG
  | FormatJPEG
  | FormatWebP
  | FormatBMP
  | FormatICO
deriving DecidableEq

/-- The 3-byte JPEG SOI marker. -/
def magicJPEG : Bytes := [0xFF, 0xD8, 0xFF]

/-- The 2-byte BMP marker `"BM"`. -/
def magicBMP : Bytes := [0x42, 0x4D]

/-- The 4-byte ICO magic `00 00 01 00`. -/
def magicICO : Bytes := [0x00, 0x00, 0x01, 0x00]

/-- `"RIFF"` (WebP outer container). -/
def magicRIFF : Bytes := [0x52, 0x49, 0x46, 0x46]

/-- `"WEBP"` (at offset 8 of a RIFF container). -/
def magicWEBP : Bytes := [0x57, 0x45, 0x42, 0x50]

/-- `detectFormat`: classify a buffer by magic-byte prefix, in the
source's priority order (PNG, JPEG, WebP, ICO, BMP). -/
def detectFormat (data : Bytes) : ImageFormat :=
  if data.length < 2 then .FormatUnknown
  else if 8 ≤ data.length ∧ startsWithBytes magicPNG data then .FormatPNG
  else if 3 ≤ data.length ∧ startsWithBytes magicJPEG data then .FormatJPEG
  else if 12 ≤ data.length ∧ startsWithBytes magicRIFF data ∧
      (data.drop 8).take 4 = magicWEBP then .FormatWebP
  else if 4 ≤ data.length ∧ startsWithBytes magicICO data then .FormatICO
  else if startsWithBytes magicBMP data then .FormatBMP
  else .FormatUnknown

/-! ## Asset path resolver

The repository's `resolveFilePath` implementation is not among the
source files (only its tests in `path_resolve_test.go` are), so the
resolver is modelled from the spec (section 4.5). -/

/-- Error of the path resolver (spec taxonomy: `BasePathRequired`). -/
inductive ResolveError where
  | BasePathRequired
deriving DecidableEq

/-- Modelled from the spec: the error message of `BasePathRequired`
"must mention that a relative path requires a base path" (the missing
implementation's exact wording is unknown; the test asserts the
substring "relative path requires base path"). -/
def ResolveError.message : ResolveError → String
  | .BasePathRequired => "relative path requires base path (no compose working directory)"

/-- `pre` is a prefix of `s` (over characters). -/
def startsWithChars : List Char → List Char → Bool
  | [], _ => true
  | _ :: _, [] => false
  | a :: as, b :: bs => a == b && startsWithChars as bs

/-- The 7 characters of the `file://` scheme. -/
def fileScheme : List Char := ['f', 'i', 'l', 'e', ':', '/', '/']

/-- Whether a path (as characters) begins with `/` (is absolute). -/
def headIsSlash (l : List Char) : Bool :=
  match l with
  | [] => false
  | c :: _ => c == '/'

/-- Modelled from the spec: the "platform-appropriate join" of a base
path and a relative path, "preserving `./` and `../` segments
uninterpreted (no normalization/cleaning is performed beyond the
join)"; on the target platform the separator is `/`. -/
def filepathJoin (basePath path : String) : String :=
  ⟨basePath.data ++ '/' :: path.data⟩

/-- Modelled from the spec (section 4.5): `resolveFilePath` — the
implementation is absent from the source tree, only its tests exist.
Strip the `file://` scheme; an absolute path (leading `/`) is returned
unchanged; a relative path requires a non-empty base path and is
joined to it. -/
def resolveFilePath (reference basePath : String) : Except ResolveError String :=
  let path : List Char :=
    if startsWithChars fileScheme reference.data then reference.data.drop 7
    else reference.data
  if headIsSlash path then .ok ⟨path⟩
  else if basePath = "" then .error .BasePathRequired
  else .ok (filepathJoin basePath ⟨path⟩)

/-! ## Concrete inputs

`c1Input` is a 62-byte ICO file: a valid 6-byte header, one directory
entry (offset 22, size 40), and a 40-byte DIB whose `headerSize` field
is 100 (larger than the 40 available bytes), `bitCount` 24,
`compression` 0.  `pngNone` is a PNG decoder stub (the entry is not a
PNG, so it is never consulted). -/

/-- A PNG decoder that always fails; used where the PNG path is not
taken (or where its failure is the point). -/
def pngNone : Bytes → Option Image := fun _ => none

/-- ICO buffer driving `decodeICO` into the unchecked
`data[pixelOffset:]` slice: DIB `headerSize` = 100 > 40 = entry size,
`bitCount` = 24, `compression` = 0. -/
def c1Input : Bytes :=
  [0, 0, 1, 0, 1, 0] ++
  [0, 0, 0, 0, 0, 0, 0, 0, 40, 0, 0, 0, 22, 0, 0, 0] ++
  ([100, 0, 0, 0, 1, 0, 0, 0, 2, 0, 0, 0, 1, 0, 24, 0, 0, 0, 0, 0] ++
   List.replicate 20 0)

/-- A 40-byte DIB with `headerSize` = 40, `bitCount` = 2 (unsupported),
`compression` = 0: the palette length check fires before the
unsupported-bit-depth check. -/
def c3Input : Bytes :=
  [40, 0, 0, 0, 1, 0, 0, 0, 2, 0, 0, 0, 1, 0, 2, 0, 0, 0, 0, 0] ++
  List.replicate 20 0

/-- A directory entry with `ColorCount` 0 (full palette) for `c3Input`. -/
def c3Entry : icoEntry := { entryZero with Size := 40, Offset := 22 }

/-- A 40-byte DIB whose header width and height fields are 0
(`headerSize` = 40, `bitCount` = 32, `compression` = 0): the decoder
must fall back to the directory entry's declared dimensions. -/
def c7Input : Bytes :=
  [40, 0, 0, 0, 0, 0, 0, 0, 0, 0, 0, 0, 1, 0, 32, 0, 0, 0, 0, 0] ++
  List.replicate 20 0

/-- A 1×1 directory entry for `c7Input`. -/
def c7Entry : icoEntry := { entryZero with Width := 1, Height := 1, Size := 40, Offset := 22 }

/-- A 40-byte DIB whose header width field is 0 but whose height field
is 2 (`headerSize` = 40, `bitCount` = 32, `compression` = 0): only the
width falls back to the directory entry's declared value. -/
def c7WidthInput : Bytes :=
  [40, 0, 0, 0, 0, 0, 0, 0, 2, 0, 0, 0, 1, 0, 32, 0, 0, 0, 0, 0] ++
  List.replicate 20 0

/-- A 3×9 directory entry for `c7WidthInput`. -/
def c7WidthEntry : icoEntry :=
  { entryZero with Width := 3, Height := 9, Size := 40, Offset := 22 }

/-- A 46-byte ICO with two surviving 4-byte entries, 16×16 at offset 38
and 32×32 at offset 42: the second (largest) entry must win. -/
def c2Input : Bytes :=
  [0, 0, 1, 0, 2, 0] ++
  [16, 16, 0, 0, 1, 0, 32, 0, 4, 0, 0, 0, 38, 0, 0, 0] ++
  [32, 32, 0, 0, 1, 0, 32, 0, 4, 0, 0, 0, 42, 0, 0, 0] ++
  [1, 2, 3, 4] ++ [5, 6, 7, 8]

/-! # Theorems

Helper lemmas first, then one theorem per claim (each claim theorem is
named `Cn_...` and preceded by a doc comment naming the claim). -/

theorem getD_set_self_of_lt {α : Type} (l : List α) (i : Nat) (a d : α)
    (h : i < l.length) : (l.set i a).getD i d = a := by
  rw [List.getD_eq_getElem?_getD, List.getElem?_set_self h, Option.getD_some]

theorem getD_set_ne {α : Type} (l : List α) (i j : Nat) (a d : α)
    (h : i ≠ j) : (l.set i a).getD j d = l.getD j d := by
  rw [List.getD_eq_getElem?_getD, List.getElem?_set_ne h, ← List.getD_eq_getElem?_getD]

theorem getD_set_of_ge {α : Type} (l : List α) (i j : Nat) (a d : α)
    (h : l.length ≤ i) : (l.set i a).getD j d = l.getD j d := by
  by_cases hij : i = j
  · subst hij
    rw [List.getD_eq_getElem?_getD, List.getElem?_eq_none (by rw [List.length_set]; exact h),
      List.getD_eq_getElem?_getD, List.getElem?_eq_none h]
  · exact getD_set_ne l i j a d hij

theorem getD_replicate {α : Type} (n : Nat) (a d : α) (i : Nat) :
    (List.replicate n a).getD i d = if i < n then a else d := by
  rw [List.getD_eq_getElem?_getD, List.getElem?_replicate]
  split
  · rfl
  · rfl

theorem getPixel_newRGBA (w h : Int) (x y : Nat) :
    getPixel (newRGBA w h) x y = zeroRGBA := by
  unfold getPixel newRGBA
  rw [getD_replicate]
  split
  · rw [getD_replicate]
    split
    · rfl
    · rfl
  · rfl

theorem getPixel_setRGBA_ne (img : Image) (x' y' : Nat) (c : RGBA) (x y : Nat)
    (h : x' ≠ x ∨ y' ≠ y) :
    getPixel (setRGBA img (x' : Int) (y' : Int) c) x y = getPixel img x y := by
  unfold setRGBA getPixel
  rw [if_pos ⟨Int.natCast_nonneg x', Int.natCast_nonneg y'⟩, Int.toNat_natCast,
    Int.toNat_natCast]
  by_cases hy : y' = y
  · subst hy
    have hx : x' ≠ x := by
      rcases h with h | h
      · exact h
      · exact absurd rfl h
    by_cases hlen : y' < img.length
    · rw [getD_set_self_of_lt _ _ _ _ hlen, getD_set_ne _ _ _ _ _ hx]
    · rw [getD_set_of_ge _ _ _ _ _ (Nat.le_of_not_lt hlen)]
  · rw [getD_set_ne _ _ _ _ _ hy]

theorem foldl_getPixel {β : Type} (step : Image → β → Image) (x y : Nat) :
    ∀ (l : List β), (∀ im b, b ∈ l → getPixel (step im b) x y = getPixel im x y) →
      ∀ img, getPixel (l.foldl step img) x y = getPixel img x y := by
  intro l
  induction l with
  | nil => intro _ img; rfl
  | cons b bs ih =>
    intro h img
    rw [List.foldl_cons, ih (fun im bb hb => h im bb (List.mem_cons_of_mem b hb)) _,
      h img b (List.mem_cons_self b bs)]

theorem bmpRows_getPixel (step : Int → Nat → Image → Image)
    (span rowSize height : Int) (dataLen : Nat) (x y : Nat)
    (h : ∀ (yy : Nat) im,
      getPixel (step ((height - 1 - (yy : Int)) * rowSize) yy im) x y = getPixel im x y) :
    ∀ n y0 img,
      getPixel (bmpRows step span rowSize height dataLen n y0 img) x y =
        getPixel img x y := by
  intro n
  induction n with
  | zero => intro y0 img; rfl
  | succ n ih =>
    intro y0 img
    simp only [bmpRows]
    split
    · rfl
    · rw [ih, h]

theorem bmpRows_stop (step : Int → Nat → Image → Image)
    (span rowSize height : Int) (dataLen : Nat)
    (h : (height - 1) * rowSize + span > (dataLen : Int)) :
    ∀ n img, bmpRows step span rowSize height dataLen n 0 img = img := by
  intro n img
  cases n with
  | zero => rfl
  | succ n =>
    simp only [bmpRows]
    rw [if_pos (by simpa using h)]

theorem rowFail_monotone (span rowSize height L : Int) (y0 : Nat) (hrs : 0 ≤ rowSize)
    (hfail : (height - 1 - (y0 : Int)) * rowSize + span > L) :
    (height - 1) * rowSize + span > L := by
  have hmul : (height - 1 - (y0 : Int)) * rowSize ≤ (height - 1) * rowSize :=
    mul_le_mul_of_nonneg_right (by linarith [Int.natCast_nonneg y0]) hrs
  linarith

theorem imgShape_newRGBA (w h : Int) : imgShape (newRGBA w h) w.toNat h.toNat := by
  constructor
  · simp [newRGBA]
  · intro y hy
    unfold newRGBA
    rw [getD_replicate, if_pos (by simpa [newRGBA] using hy), List.length_replicate]

theorem imgShape_setRGBA (img : Image) (w h : Nat) (x y : Int) (c : RGBA)
    (hs : imgShape img w h) : imgShape (setRGBA img x y c) w h := by
  unfold setRGBA
  split
  · constructor
    · rw [List.length_set]
      exact hs.1
    · intro yy hyy
      by_cases heq : y.toNat = yy
      · subst heq
        have hlen : y.toNat < img.length := by rw [hs.1]; exact hyy
        rw [getD_set_self_of_lt _ _ _ _ hlen, List.length_set]
        exact hs.2 _ hyy
      · rw [getD_set_ne _ _ _ _ _ heq]
        exact hs.2 _ hyy
  · exact hs

theorem foldl_imgShape {β : Type} (step : Image → β → Image) (w h : Nat)
    (hstep : ∀ im b, imgShape im w h → imgShape (step im b) w h) :
    ∀ (l : List β) img, imgShape img w h → imgShape (l.foldl step img) w h := by
  intro l
  induction l with
  | nil => intro img hi; exact hi
  | cons b bs ih => intro img hi; exact ih _ (hstep img b hi)

theorem bmpRows_imgShape (step : Int → Nat → Image → Image)
    (span rowSize height : Int) (dataLen : Nat) (w h : Nat)
    (hstep : ∀ ro yy im, imgShape im w h → imgShape (step ro yy im) w h) :
    ∀ n y0 img, imgShape img w h →
      imgShape (bmpRows step span rowSize height dataLen n y0 img) w h := by
  intro n
  induction n with
  | zero => intro y0 img hi; exact hi
  | succ n ih =>
    intro y0 img hi
    simp only [bmpRows]
    split
    · exact hi
    · exact ih _ _ (hstep _ _ _ hi)

theorem palettePx_imgShape (palette : Bytes) (pv : Nat) (x y : Nat)
    (im : Image) (w h : Nat) (hs : imgShape im w h) :
    imgShape (palettePx palette pv x y im) w h := by
  simp only [palettePx]
  split
  · exact imgShape_setRGBA _ _ _ _ _ _ hs
  · exact hs

theorem bmp1Row_imgShape (data palette : Bytes) (width : Int) (ro : Int) (y : Nat)
    (im : Image) (w h : Nat) (hs : imgShape im w h) :
    imgShape (bmp1Row data palette width ro y im) w h :=
  foldl_imgShape _ w h (fun im2 x h2 => palettePx_imgShape _ _ _ _ im2 w h h2) _ im hs

theorem bmp4Row_imgShape (data palette : Bytes) (width : Int) (ro : Int) (y : Nat)
    (im : Image) (w h : Nat) (hs : imgShape im w h) :
    imgShape (bmp4Row data palette width ro y im) w h :=
  foldl_imgShape _ w h (fun im2 x h2 => palettePx_imgShape _ _ _ _ im2 w h h2) _ im hs

theorem bmp8Row_imgShape (data palette : Bytes) (width : Int) (ro : Int) (y : Nat)
    (im : Image) (w h : Nat) (hs : imgShape im w h) :
    imgShape (bmp8Row data palette width ro y im) w h :=
  foldl_imgShape _ w h (fun im2 x h2 => palettePx_imgShape _ _ _ _ im2 w h h2) _ im hs

theorem bmp24Row_imgShape (data : Bytes) (width : Int) (ro : Int) (y : Nat)
    (im : Image) (w h : Nat) (hs : imgShape im w h) :
    imgShape (bmp24Row data width ro y im) w h :=
  foldl_imgShape _ w h (fun im2 x h2 => imgShape_setRGBA _ _ _ _ _ _ h2) _ im hs

theorem bmp32Row_imgShape (data : Bytes) (width : Int) (ro : Int) (y : Nat)
    (im : Image) (w h : Nat) (hs : imgShape im w h) :
    imgShape (bmp32Row data width ro y im) w h :=
  foldl_imgShape _ w h (fun im2 x h2 => imgShape_setRGBA _ _ _ _ _ _ h2) _ im hs

theorem decodeICOBMP1_err (img : Image) (data : Bytes) (width height : Int)
    (palette : Bytes) : (decodeICOBMP1 img data width height palette).2 = none := rfl

theorem decodeICOBMP4_err (img : Image) (data : Bytes) (width height : Int)
    (palette : Bytes) : (decodeICOBMP4 img data width height palette).2 = none := rfl

theorem decodeICOBMP8_err (img : Image) (data : Bytes) (width height : Int)
    (palette : Bytes) : (decodeICOBMP8 img data width height palette).2 = none := rfl

theorem decodeICOBMP24_err (img : Image) (data : Bytes) (width height : Int) :
    (decodeICOBMP24 img data width height).2 = none := rfl

theorem decodeICOBMP32_err (img : Image) (data : Bytes) (width height : Int) :
    (decodeICOBMP32 img data width height).2 = none := rfl

/-- C1: the claim states `decodeICO` (with the embedded-image dispatch
and the BMP decoder) never panics nor slices past the buffer for any
DIB `headerSize` and bit depth.  The code violates this: on `c1Input`
(valid ICO header, one in-bounds 40-byte BMP entry whose DIB declares
`headerSize` = 100, `bitCount` = 24, `compression` = 0) the Go
expression `data[pixelOffset:]` slices at offset 100 of a 40-byte
buffer and panics; the model returns the `panic` outcome. -/
theorem C1_decodeICO_panics_on_oversized_headerSize :
    decodeICO pngNone c1Input = GoResult.panic := by decide

/-- Counterexample to C3 as stated: `c3Input` is a 40-byte DIB with
`headerSize` = 40, `compression` = 0 and unsupported `bitCount` = 2,
yet `decodeICOBMP` fails with the palette-truncation error (the palette
length check runs before the bit-depth switch), not
`UnsupportedBitDepth`. -/
theorem C3_counterexample_bitCount2_palette_error :
    le32 c3Input 0 = 40 ∧ le32 c3Input 16 = 0 ∧ le16 c3Input 14 = 2 ∧
    decodeICOBMP c3Input c3Entry = GoResult.err IcoError.tooShortForPalette ∧
    IcoError.tooShortForPalette ≠ IcoError.unsupportedBitDepth 2 := by decide

theorem rowSize1_nonneg (w : Int) (hw : 0 ≤ w) : 0 ≤ rowSize1 w :=
  mul_nonneg (Int.tdiv_nonneg (by linarith) (by norm_num)) (by norm_num)

theorem rowSize4_nonneg (w : Int) (hw : 0 ≤ w) : 0 ≤ rowSize4 w :=
  mul_nonneg (Int.tdiv_nonneg (by linarith) (by norm_num)) (by norm_num)

theorem rowSize8_nonneg (w : Int) (hw : 0 ≤ w) : 0 ≤ rowSize8 w :=
  mul_nonneg (Int.tdiv_nonneg (by linarith) (by norm_num)) (by norm_num)

theorem rowSize24_nonneg (w : Int) (hw : 0 ≤ w) : 0 ≤ rowSize24 w :=
  mul_nonneg (Int.tdiv_nonneg (by linarith) (by norm_num)) (by norm_num)

theorem rowSize32_nonneg (w : Int) (hw : 0 ≤ w) : 0 ≤ rowSize32 w :=
  mul_nonneg hw (by norm_num)

/-- C4: at every supported bit depth (1, 4, 8, 24, 32) the per-depth
row decoders never return an error, and a row `y0` whose required byte
span (`rowOffset + span`, with the per-depth stride and span of the
source) exceeds the remaining buffer leaves that output row and every
subsequent output row at the default all-zero (transparent-black)
pixel row, the decode still succeeding. -/
theorem C4_row_truncation_tolerance :
    (∀ img data w h palette, (decodeICOBMP1 img data w h palette).2 = none) ∧
    (∀ img data w h palette, (decodeICOBMP4 img data w h palette).2 = none) ∧
    (∀ img data w h palette, (decodeICOBMP8 img data w h palette).2 = none) ∧
    (∀ img data w h, (decodeICOBMP24 img data w h).2 = none) ∧
    (∀ img data w h, (decodeICOBMP32 img data w h).2 = none) ∧
    (∀ data w h palette (y0 : Nat), 0 ≤ w → (y0 : Int) < h →
      (h - 1 - (y0 : Int)) * rowSize1 w + rowSize1 w > (data.length : Int) →
      ∀ y : Nat, y0 ≤ y → (y : Int) < h →
        (decodeICOBMP1 (newRGBA w h) data w h palette).1.getD y [] =
          List.replicate w.toNat zeroRGBA) ∧
    (∀ data w h palette (y0 : Nat), 0 ≤ w → (y0 : Int) < h →
      (h - 1 - (y0 : Int)) * rowSize4 w + rowSize4 w > (data.length : Int) →
      ∀ y : Nat, y0 ≤ y → (y : Int) < h →
        (decodeICOBMP4 (newRGBA w h) data w h palette).1.getD y [] =
          List.replicate w.toNat zeroRGBA) ∧
    (∀ data w h palette (y0 : Nat), 0 ≤ w → (y0 : Int) < h →
      (h - 1 - (y0 : Int)) * rowSize8 w + w > (data.length : Int) →
      ∀ y : Nat, y0 ≤ y → (y : Int) < h →
        (decodeICOBMP8 (newRGBA w h) data w h palette).1.getD y [] =
          List.replicate w.toNat zeroRGBA) ∧
    (∀ data w h (y0 : Nat), 0 ≤ w → (y0 : Int) < h →
      (h - 1 - (y0 : Int)) * rowSize24 w + w * 3 > (data.length : Int) →
      ∀ y : Nat, y0 ≤ y → (y : Int) < h →
        (decodeICOBMP24 (newRGBA w h) data w h).1.getD y [] =
          List.replicate w.toNat zeroRGBA) ∧
    (∀ data w h (y0 : Nat), 0 ≤ w → (y0 : Int) < h →
      (h - 1 - (y0 : Int)) * rowSize32 w + w * 4 > (data.length : Int) →
      ∀ y : Nat, y0 ≤ y → (y : Int) < h →
        (decodeICOBMP32 (newRGBA w h) data w h).1.getD y [] =
          List.replicate w.toNat zeroRGBA) := by
  refine ⟨fun _ _ _ _ _ => rfl, fun _ _ _ _ _ => rfl, fun _ _ _ _ _ => rfl,
    fun _ _ _ _ => rfl, fun _ _ _ _ => rfl, ?_, ?_, ?_, ?_, ?_⟩
  · intro data w h palette y0 hw _ hfail y _ hyh
    simp only [decodeICOBMP1]
    rw [bmpRows_stop _ _ _ _ _
      (rowFail_monotone _ _ _ _ y0 (rowSize1_nonneg w hw) hfail) _ _]
    unfold newRGBA
    rw [getD_replicate, if_pos (Int.lt_toNat.mpr hyh)]
  · intro data w h palette y0 hw _ hfail y _ hyh
    simp only [decodeICOBMP4]
    rw [bmpRows_stop _ _ _ _ _
      (rowFail_monotone _ _ _ _ y0 (rowSize4_nonneg w hw) hfail) _ _]
    unfold newRGBA
    rw [getD_replicate, if_pos (Int.lt_toNat.mpr hyh)]
  · intro data w h palette y0 hw _ hfail y _ hyh
    simp only [decodeICOBMP8]
    rw [bmpRows_stop _ _ _ _ _
      (rowFail_monotone _ _ _ _ y0 (rowSize8_nonneg w hw) hfail) _ _]
    unfold newRGBA
    rw [getD_replicate, if_pos (Int.lt_toNat.mpr hyh)]
  · intro data w h y0 hw _ hfail y _ hyh
    simp only [decodeICOBMP24]
    rw [bmpRows_stop _ _ _ _ _
      (rowFail_monotone _ _ _ _ y0 (rowSize24_nonneg w hw) hfail) _ _]
    unfold newRGBA
    rw [getD_replicate, if_pos (Int.lt_toNat.mpr hyh)]
  · intro data w h y0 hw _ hfail y _ hyh
    simp only [decodeICOBMP32]
    rw [bmpRows_stop _ _ _ _ _
      (rowFail_monotone _ _ _ _ y0 (rowSize32_nonneg w hw) hfail) _ _]
    unfold newRGBA
    rw [getD_replicate, if_pos (Int.lt_toNat.mpr hyh)]

/-- Witness for C4 at its 32-bit part: width 1, height 2, empty pixel
buffer; the span of row 0 (`(2-1-0)*4 + 4 = 8`) exceeds the 0 remaining
bytes and rows 0 and 1 of the decoded output are the zero row. -/
theorem C4_row_truncation_tolerance_witness :
    ((0 : Int) ≤ 1 ∧ (((0 : Nat) : Int) < 2) ∧
      ((2 : Int) - 1 - ((0 : Nat) : Int)) * rowSize32 1 + 1 * 4 >
        ((([] : Bytes).length : Nat) : Int)) ∧
    (decodeICOBMP32 (newRGBA 1 2) [] 1 2).1.getD 1 [] =
      List.replicate (1 : Int).toNat zeroRGBA :=
  ⟨by decide,
    C4_row_truncation_tolerance.2.2.2.2.2.2.2.2.2 [] 1 2 0 (by decide) (by decide)
      (by decide) 1 (by decide) (by decide)⟩

theorem palettePx_getPixel_ne (palette : Bytes) (pv : Nat) (xx yy : Nat)
    (im : Image) (x y : Nat) (h : xx ≠ x ∨ yy ≠ y) :
    getPixel (palettePx palette pv xx yy im) x y = getPixel im x y := by
  simp only [palettePx]
  split
  · exact getPixel_setRGBA_ne im xx yy _ x y h
  · rfl

theorem palettePx_oob (palette : Bytes) (pv : Nat) (x y : Nat) (im : Image)
    (h : ¬ pv * 4 + 3 < palette.length) :
    palettePx palette pv x y im = im := by
  simp only [palettePx]
  rw [if_neg h]

theorem bmp1_oob_pixel (data palette : Bytes) (w h : Int) (x y : Nat)
    (hoob : ¬ pixelValue1 data ((h - 1 - (y : Int)) * rowSize1 w) x * 4 + 3 <
      palette.length) :
    getPixel ((decodeICOBMP1 (newRGBA w h) data w h palette).1) x y = zeroRGBA := by
  have hpres : ∀ (yy : Nat) im,
      getPixel (bmp1Row data palette w ((h - 1 - (yy : Int)) * rowSize1 w) yy im) x y =
        getPixel im x y := by
    intro yy im
    simp only [bmp1Row]
    by_cases hyy : y = yy
    · subst hyy
      refine foldl_getPixel _ x y _ (fun im2 xx hxx => ?_) im
      by_cases hxe : x = xx
      · subst hxe
        rw [palettePx_oob _ _ _ _ _ hoob]
      · exact palettePx_getPixel_ne _ _ _ _ _ _ _ (Or.inl (Ne.symm hxe))
    · exact foldl_getPixel _ x y _
        (fun im2 xx hxx => palettePx_getPixel_ne _ _ _ _ _ _ _ (Or.inr (Ne.symm hyy))) im
  simp only [decodeICOBMP1]
  rw [bmpRows_getPixel _ _ _ _ _ x y hpres, getPixel_newRGBA]

theorem bmp4_oob_pixel (data palette : Bytes) (w h : Int) (x y : Nat)
    (hoob : ¬ pixelValue4 data ((h - 1 - (y : Int)) * rowSize4 w) x * 4 + 3 <
      palette.length) :
    getPixel ((decodeICOBMP4 (newRGBA w h) data w h palette).1) x y = zeroRGBA := by
  have hpres : ∀ (yy : Nat) im,
      getPixel (bmp4Row data palette w ((h - 1 - (yy : Int)) * rowSize4 w) yy im) x y =
        getPixel im x y := by
    intro yy im
    simp only [bmp4Row]
    by_cases hyy : y = yy
    · subst hyy
      refine foldl_getPixel _ x y _ (fun im2 xx hxx => ?_) im
      by_cases hxe : x = xx
      · subst hxe
        rw [palettePx_oob _ _ _ _ _ hoob]
      · exact palettePx_getPixel_ne _ _ _ _ _ _ _ (Or.inl (Ne.symm hxe))
    · exact foldl_getPixel _ x y _
        (fun im2 xx hxx => palettePx_getPixel_ne _ _ _ _ _ _ _ (Or.inr (Ne.symm hyy))) im
  simp only [decodeICOBMP4]
  rw [bmpRows_getPixel _ _ _ _ _ x y hpres, getPixel_newRGBA]

theorem bmp8_oob_pixel (data palette : Bytes) (w h : Int) (x y : Nat)
    (hoob : ¬ pixelValue8 data ((h - 1 - (y : Int)) * rowSize8 w) x * 4 + 3 <
      palette.length) :
    getPixel ((decodeICOBMP8 (newRGBA w h) data w h palette).1) x y = zeroRGBA := by
  have hpres : ∀ (yy : Nat) im,
      getPixel (bmp8Row data palette w ((h - 1 - (yy : Int)) * rowSize8 w) yy im) x y =
        getPixel im x y := by
    intro yy im
    simp only [bmp8Row]
    by_cases hyy : y = yy
    · subst hyy
      refine foldl_getPixel _ x y _ (fun im2 xx hxx => ?_) im
      by_cases hxe : x = xx
      · subst hxe
        rw [palettePx_oob _ _ _ _ _ hoob]
      · exact palettePx_getPixel_ne _ _ _ _ _ _ _ (Or.inl (Ne.symm hxe))
    · exact foldl_getPixel _ x y _
        (fun im2 xx hxx => palettePx_getPixel_ne _ _ _ _ _ _ _ (Or.inr (Ne.symm hyy))) im
  simp only [decodeICOBMP8]
  rw [bmpRows_getPixel _ _ _ _ _ x y hpres, getPixel_newRGBA]

/-- C10: in the palette-indexed decoders (bit depths 1, 4, 8) a pixel
whose palette index reaches at or beyond the end of the supplied
palette (the `paletteIdx + 3 < len(palette)` guard fails) is silently
left at the default zero pixel; no error is returned and the palette is
never read past its end (the model only reads the palette under that
guard). -/
theorem C10_palette_index_out_of_range_skipped :
    (∀ data palette w h (x y : Nat), (x : Int) < w → (y : Int) < h →
      ¬ pixelValue1 data ((h - 1 - (y : Int)) * rowSize1 w) x * 4 + 3 <
        palette.length →
      (decodeICOBMP1 (newRGBA w h) data w h palette).2 = none ∧
      getPixel ((decodeICOBMP1 (newRGBA w h) data w h palette).1) x y = zeroRGBA) ∧
    (∀ data palette w h (x y : Nat), (x : Int) < w → (y : Int) < h →
      ¬ pixelValue4 data ((h - 1 - (y : Int)) * rowSize4 w) x * 4 + 3 <
        palette.length →
      (decodeICOBMP4 (newRGBA w h) data w h palette).2 = none ∧
      getPixel ((decodeICOBMP4 (newRGBA w h) data w h palette).1) x y = zeroRGBA) ∧
    (∀ data palette w h (x y : Nat), (x : Int) < w → (y : Int) < h →
      ¬ pixelValue8 data ((h - 1 - (y : Int)) * rowSize8 w) x * 4 + 3 <
        palette.length →
      (decodeICOBMP8 (newRGBA w h) data w h palette).2 = none ∧
      getPixel ((decodeICOBMP8 (newRGBA w h) data w h palette).1) x y = zeroRGBA) := by
  refine ⟨fun data palette w h x y _ _ hoob => ⟨rfl, ?_⟩,
    fun data palette w h x y _ _ hoob => ⟨rfl, ?_⟩,
    fun data palette w h x y _ _ hoob => ⟨rfl, ?_⟩⟩
  · exact bmp1_oob_pixel data palette w h x y hoob
  · exact bmp4_oob_pixel data palette w h x y hoob
  · exact bmp8_oob_pixel data palette w h x y hoob

/-- Witness for C10 at its 8-bit part: a 1×1 image whose single pixel
byte is 200, but the palette holds a single entry (4 bytes): the pixel
stays zero and no error results. -/
theorem C10_palette_index_out_of_range_skipped_witness :
    (((0 : Nat) : Int) < 1 ∧ (((0 : Nat) : Int) < 1) ∧
      ¬ pixelValue8 [200] ((1 - 1 - ((0 : Nat) : Int)) * rowSize8 1) 0 * 4 + 3 <
        ([1, 2, 3, 4] : Bytes).length) ∧
    (decodeICOBMP8 (newRGBA 1 1) [200] 1 1 [1, 2, 3, 4]).2 = none ∧
    getPixel ((decodeICOBMP8 (newRGBA 1 1) [200] 1 1 [1, 2, 3, 4]).1) 0 0 = zeroRGBA :=
  ⟨by decide,
    C10_palette_index_out_of_range_skipped.2.2 [200] [1, 2, 3, 4] 1 1 0 0
      (by decide) (by decide) (by decide)⟩

theorem bmpResult_ok_of_none (p : Image × Option IcoError) (h : p.2 = none) :
    bmpResult p = GoResult.ok p.1 := by
  rcases p with ⟨a, b⟩
  cases b with
  | none => rfl
  | some e => exact absurd h (by simp)

theorem decodeICOBMP1_shape (img : Image) (data : Bytes) (w h : Int)
    (palette : Bytes) (wn hn : Nat) (hs : imgShape img wn hn) :
    imgShape (decodeICOBMP1 img data w h palette).1 wn hn := by
  simp only [decodeICOBMP1]
  exact bmpRows_imgShape _ _ _ _ _ _ _
    (fun ro yy im hi => bmp1Row_imgShape _ _ _ _ _ _ _ _ hi) _ _ _ hs

theorem decodeICOBMP4_shape (img : Image) (data : Bytes) (w h : Int)
    (palette : Bytes) (wn hn : Nat) (hs : imgShape img wn hn) :
    imgShape (decodeICOBMP4 img data w h palette).1 wn hn := by
  simp only [decodeICOBMP4]
  exact bmpRows_imgShape _ _ _ _ _ _ _
    (fun ro yy im hi => bmp4Row_imgShape _ _ _ _ _ _ _ _ hi) _ _ _ hs

theorem decodeICOBMP8_shape (img : Image) (data : Bytes) (w h : Int)
    (palette : Bytes) (wn hn : Nat) (hs : imgShape img wn hn) :
    imgShape (decodeICOBMP8 img data w h palette).1 wn hn := by
  simp only [decodeICOBMP8]
  exact bmpRows_imgShape _ _ _ _ _ _ _
    (fun ro yy im hi => bmp8Row_imgShape _ _ _ _ _ _ _ _ hi) _ _ _ hs

theorem decodeICOBMP24_shape (img : Image) (data : Bytes) (w h : Int)
    (wn hn : Nat) (hs : imgShape img wn hn) :
    imgShape (decodeICOBMP24 img data w h).1 wn hn := by
  simp only [decodeICOBMP24]
  exact bmpRows_imgShape _ _ _ _ _ _ _
    (fun ro yy im hi => bmp24Row_imgShape _ _ _ _ _ _ _ hi) _ _ _ hs

theorem decodeICOBMP32_shape (img : Image) (data : Bytes) (w h : Int)
    (wn hn : Nat) (hs : imgShape img wn hn) :
    imgShape (decodeICOBMP32 img data w h).1 wn hn := by
  simp only [decodeICOBMP32]
  exact bmpRows_imgShape _ _ _ _ _ _ _
    (fun ro yy im hi => bmp32Row_imgShape _ _ _ _ _ _ _ hi) _ _ _ hs

theorem decodeICOBMP_ok_shape (data : Bytes) (e : icoEntry) (img : Image)
    (hok : decodeICOBMP data e = GoResult.ok img) :
    imgShape img (bmpWidth data e).toNat (bmpHeight data e).toNat := by
  simp only [decodeICOBMP] at hok
  split at hok
  · exact absurd hok (by simp)
  · split at hok
    · exact absurd hok (by simp)
    · split at hok
      · exact absurd hok (by simp)
      · split at hok
        · -- bitCount ≤ 8 branch
          split at hok
          · exact absurd hok (by simp)
          · split at hok
            · rw [bmpResult_ok_of_none _ rfl] at hok
              obtain rfl := (GoResult.ok.injEq _ _).mp hok
              exact decodeICOBMP1_shape _ _ _ _ _ _ _ (imgShape_newRGBA _ _)
            · rw [bmpResult_ok_of_none _ rfl] at hok
              obtain rfl := (GoResult.ok.injEq _ _).mp hok
              exact decodeICOBMP4_shape _ _ _ _ _ _ _ (imgShape_newRGBA _ _)
            · rw [bmpResult_ok_of_none _ rfl] at hok
              obtain rfl := (GoResult.ok.injEq _ _).mp hok
              exact decodeICOBMP8_shape _ _ _ _ _ _ _ (imgShape_newRGBA _ _)
            · exact absurd hok (by simp)
        · -- bitCount > 8 branch
          split at hok
          · split at hok
            · exact absurd hok (by simp)
            · rw [bmpResult_ok_of_none _ rfl] at hok
              obtain rfl := (GoResult.ok.injEq _ _).mp hok
              exact decodeICOBMP24_shape _ _ _ _ _ _ (imgShape_newRGBA _ _)
          · split at hok
            · exact absurd hok (by simp)
            · rw [bmpResult_ok_of_none _ rfl] at hok
              obtain rfl := (GoResult.ok.injEq _ _).mp hok
              exact decodeICOBMP32_shape _ _ _ _ _ _ (imgShape_newRGBA _ _)
          · exact absurd hok (by simp)

/-- C7: a declared directory-entry width or height byte of 0 means 256:
the resolution compared by the best-entry scan is
`getActualWidth * getActualHeight` with the 0 ⇒ 256 substitution (and a
strictly larger such resolution wins a `considerEntry` step), and each
substituted value is, independently, the corresponding dimension of the
decoded image when the embedded BMP header reports a zero width
(resp. a zero height). -/
theorem C7_zero_means_256 :
    (∀ e : icoEntry,
      (e.Width = 0 → e.getActualWidth = 256) ∧
      (e.Width ≠ 0 → e.getActualWidth = e.Width) ∧
      (e.Height = 0 → e.getActualHeight = 256) ∧
      (e.Height ≠ 0 → e.getActualHeight = e.Height) ∧
      e.resolution = e.getActualWidth * e.getActualHeight) ∧
    (∀ (dataLen : Nat) (b e : icoEntry), survives dataLen e →
      e.resolution > b.resolution →
      considerEntry dataLen (some b, b.resolution) e = (some e, e.resolution)) ∧
    (∀ (data : Bytes) (e : icoEntry), le32 data 4 = 0 →
      ∀ img, decodeICOBMP data e = GoResult.ok img →
        ∀ y, y < img.length → (img.getD y []).length = e.getActualWidth) ∧
    (∀ (data : Bytes) (e : icoEntry), le32 data 8 = 0 →
      ∀ img, decodeICOBMP data e = GoResult.ok img →
        img.length = e.getActualHeight) := by
  refine ⟨?_, ?_, ?_, ?_⟩
  · intro e
    refine ⟨fun h => ?_, fun h => ?_, fun h => ?_, fun h => ?_, rfl⟩
    · rw [icoEntry.getActualWidth, if_pos h]
    · rw [icoEntry.getActualWidth, if_neg h]
    · rw [icoEntry.getActualHeight, if_pos h]
    · rw [icoEntry.getActualHeight, if_neg h]
  · intro dataLen b e hs hgt
    rw [considerEntry, if_neg (not_or.mpr ⟨hs.1, hs.2.1⟩),
      if_neg (not_lt.mpr hs.2.2)]
    simp only [if_pos hgt]
  · intro data e h4 img hok y hy
    have hw : bmpWidth data e = (e.getActualWidth : Int) := by
      rw [bmpWidth, h4]
      norm_num [toInt32]
    have hsh := decodeICOBMP_ok_shape data e img hok
    rw [hw, Int.toNat_natCast] at hsh
    exact hsh.2 y (hsh.1 ▸ hy)
  · intro data e h8 img hok
    have hh : bmpHeight data e = (e.getActualHeight : Int) := by
      rw [bmpHeight, h8]
      norm_num [toInt32, Int.zero_tdiv]
    have hsh := decodeICOBMP_ok_shape data e img hok
    rw [hh, Int.toNat_natCast] at hsh
    exact hsh.1

/-- Witness for C7's two fallback parts: `c7WidthInput` has a zero
header width but height 2, and every row of its decode has the entry's
substituted width (3); `c7Input` has a zero header height, and its
decode has the entry's substituted height (1 row). -/
theorem C7_zero_means_256_witness :
    (le32 c7WidthInput 4 = 0 ∧ le32 c7WidthInput 8 = 2 ∧
      decodeICOBMP c7WidthInput c7WidthEntry =
        GoResult.ok [[zeroRGBA, zeroRGBA, zeroRGBA]] ∧
      le32 c7Input 8 = 0 ∧
      decodeICOBMP c7Input c7Entry = GoResult.ok [[zeroRGBA]]) ∧
    (([[zeroRGBA, zeroRGBA, zeroRGBA]] : Image).getD 0 []).length =
      c7WidthEntry.getActualWidth ∧
    ([[zeroRGBA]] : Image).length = c7Entry.getActualHeight :=
  ⟨by decide,
    C7_zero_means_256.2.2.1 c7WidthInput c7WidthEntry (by decide)
      [[zeroRGBA, zeroRGBA, zeroRGBA]] (by decide) 0 (by decide),
    C7_zero_means_256.2.2.2 c7Input c7Entry (by decide) [[zeroRGBA]] (by decide)⟩

theorem startsWithBytes_append (pre l : Bytes) :
    startsWithBytes pre (pre ++ l) = true := by
  induction pre with
  | nil => rfl
  | cons a as ih => simp [startsWithBytes, ih]

/-- C5: a buffer whose prefix is a supported format's magic sequence is
classified as that format by `detectFormat` regardless of the trailing
bytes (for WebP: `"RIFF"`, any 4-byte size field, then `"WEBP"`). -/
theorem C5_magic_prefix_detection :
    (∀ rest : Bytes, detectFormat (magicPNG ++ rest) = ImageFormat.FormatPNG) ∧
    (∀ rest : Bytes, detectFormat (magicJPEG ++ rest) = ImageFormat.FormatJPEG) ∧
    (∀ rest : Bytes, detectFormat (magicBMP ++ rest) = ImageFormat.FormatBMP) ∧
    (∀ rest : Bytes, detectFormat (magicICO ++ rest) = ImageFormat.FormatICO) ∧
    (∀ size rest : Bytes, size.length = 4 →
      detectFormat (magicRIFF ++ size ++ magicWEBP ++ rest) = ImageFormat.FormatWebP) := by
  refine ⟨?_, ?_, ?_, ?_, ?_⟩
  · intro rest
    have hlen : (magicPNG ++ rest).length = 8 + rest.length := by simp [magicPNG]; omega
    rw [detectFormat, if_neg (show ¬(magicPNG ++ rest).length < 2 by rw [hlen]; omega),
      if_pos ⟨by rw [hlen]; omega, startsWithBytes_append _ _⟩]
  · intro rest
    have hlen : (magicJPEG ++ rest).length = 3 + rest.length := by simp [magicJPEG]; omega
    have h1 : startsWithBytes magicPNG (magicJPEG ++ rest) = false := rfl
    rw [detectFormat, if_neg (show ¬(magicJPEG ++ rest).length < 2 by rw [hlen]; omega),
      if_neg (fun hc => Bool.false_ne_true (h1 ▸ hc.2)),
      if_pos ⟨by rw [hlen]; omega, startsWithBytes_append _ _⟩]
  · intro rest
    have hlen : (magicBMP ++ rest).length = 2 + rest.length := by simp [magicBMP]; omega
    have h1 : startsWithBytes magicPNG (magicBMP ++ rest) = false := rfl
    have h2 : startsWithBytes magicJPEG (magicBMP ++ rest) = false := rfl
    have h3 : startsWithBytes magicRIFF (magicBMP ++ rest) = false := rfl
    have h4 : startsWithBytes magicICO (magicBMP ++ rest) = false := rfl
    rw [detectFormat, if_neg (show ¬(magicBMP ++ rest).length < 2 by rw [hlen]; omega),
      if_neg (fun hc => Bool.false_ne_true (h1 ▸ hc.2)),
      if_neg (fun hc => Bool.false_ne_true (h2 ▸ hc.2)),
      if_neg (fun hc => Bool.false_ne_true (h3 ▸ hc.2.1)),
      if_neg (fun hc => Bool.false_ne_true (h4 ▸ hc.2)),
      if_pos (startsWithBytes_append _ _)]
  · intro rest
    have hlen : (magicICO ++ rest).length = 4 + rest.length := by simp [magicICO]; omega
    have h1 : startsWithBytes magicPNG (magicICO ++ rest) = false := rfl
    have h2 : startsWithBytes magicJPEG (magicICO ++ rest) = false := rfl
    have h3 : startsWithBytes magicRIFF (magicICO ++ rest) = false := rfl
    rw [detectFormat, if_neg (show ¬(magicICO ++ rest).length < 2 by rw [hlen]; omega),
      if_neg (fun hc => Bool.false_ne_true (h1 ▸ hc.2)),
      if_neg (fun hc => Bool.false_ne_true (h2 ▸ hc.2)),
      if_neg (fun hc => Bool.false_ne_true (h3 ▸ hc.2.1)),
      if_pos ⟨by rw [hlen]; omega, startsWithBytes_append _ _⟩]
  · intro size rest hsz
    have hlen : (magicRIFF ++ size ++ magicWEBP ++ rest).length = 12 + rest.length := by
      simp [magicRIFF, magicWEBP, hsz]
      omega
    have h1 : startsWithBytes magicPNG (magicRIFF ++ size ++ magicWEBP ++ rest) = false := rfl
    have h2 : startsWithBytes magicJPEG (magicRIFF ++ size ++ magicWEBP ++ rest) = false := rfl
    have h8 : (magicRIFF ++ size).length = 8 := by simp [magicRIFF, hsz]
    have hdrop : ((magicRIFF ++ size ++ magicWEBP ++ rest).drop 8).take 4 = magicWEBP := by
      rw [show magicRIFF ++ size ++ magicWEBP ++ rest =
          (magicRIFF ++ size) ++ (magicWEBP ++ rest) by simp,
        show (8 : Nat) = (magicRIFF ++ size).length from h8.symm, List.drop_left,
        show (4 : Nat) = magicWEBP.length from rfl, List.take_left]
    rw [detectFormat,
      if_neg (show ¬(magicRIFF ++ size ++ magicWEBP ++ rest).length < 2 by rw [hlen]; omega),
      if_neg (fun hc => Bool.false_ne_true (h1 ▸ hc.2)),
      if_neg (fun hc => Bool.false_ne_true (h2 ▸ hc.2)),
      if_pos ⟨by rw [hlen]; omega, by rw [List.append_assoc]; exact startsWithBytes_append _ _, hdrop⟩]

/-- Witness for C5's WebP part: a 13-byte RIFF/WEBP buffer with size
field `[1, 2, 3, 4]` and one trailing byte is detected as WebP. -/
theorem C5_magic_prefix_detection_witness :
    ([1, 2, 3, 4] : Bytes).length = 4 ∧
    detectFormat (magicRIFF ++ [1, 2, 3, 4] ++ magicWEBP ++ [9]) = ImageFormat.FormatWebP :=
  ⟨by decide, C5_magic_prefix_detection.2.2.2.2 [1, 2, 3, 4] [9] (by decide)⟩

theorem decodeICOBMP_err_family (data : Bytes) (e : icoEntry) (x : IcoError)
    (h : decodeICOBMP data e = GoResult.err x) : x.isMalformedHeader = false := by
  simp only [decodeICOBMP] at h
  split at h
  · obtain rfl := (GoResult.err.injEq _ _).mp h
    rfl
  · split at h
    · obtain rfl := (GoResult.err.injEq _ _).mp h
      rfl
    · split at h
      · obtain rfl := (GoResult.err.injEq _ _).mp h
        rfl
      · split at h
        · split at h
          · obtain rfl := (GoResult.err.injEq _ _).mp h
            rfl
          · split at h
            · rw [bmpResult_ok_of_none _ rfl] at h
              exact absurd h (by simp)
            · rw [bmpResult_ok_of_none _ rfl] at h
              exact absurd h (by simp)
            · rw [bmpResult_ok_of_none _ rfl] at h
              exact absurd h (by simp)
            · obtain rfl := (GoResult.err.injEq _ _).mp h
              rfl
        · split at h
          · split at h
            · exact absurd h (by simp)
            · rw [bmpResult_ok_of_none _ rfl] at h
              exact absurd h (by simp)
          · split at h
            · exact absurd h (by simp)
            · rw [bmpResult_ok_of_none _ rfl] at h
              exact absurd h (by simp)
          · obtain rfl := (GoResult.err.injEq _ _).mp h
            rfl

theorem decodeICOImage_err_family (p : Bytes → Option Image) (data : Bytes)
    (e : icoEntry) (x : IcoError)
    (h : decodeICOImage p data e = GoResult.err x) : x.isMalformedHeader = false := by
  simp only [decodeICOImage] at h
  split at h
  · obtain rfl := (GoResult.err.injEq _ _).mp h
    rfl
  · split at h
    · split at h
      · exact absurd h (by simp)
      · obtain rfl := (GoResult.err.injEq _ _).mp h
        rfl
    · exact decodeICOBMP_err_family data e x h

/-- C6: `decodeICO` fails with an error of the `MalformedHeader` family
exactly when the buffer is shorter than 6 bytes, or the little-endian
reserved field is nonzero, or the type field is not 1, or the entry
count is 0; such a failure is an `err` outcome, never an image. -/
theorem C6_malformed_header_iff (p : Bytes → Option Image) (data : Bytes) :
    (∃ e, decodeICO p data = GoResult.err e ∧ e.isMalformedHeader = true) ↔
    (data.length < 6 ∨ le16 data 0 ≠ 0 ∨ le16 data 2 ≠ 1 ∨ le16 data 4 = 0) := by
  constructor
  · rintro ⟨e, he, hm⟩
    by_contra hR
    push_neg at hR
    obtain ⟨h6, h0, h2, h4⟩ := hR
    simp only [decodeICO] at he
    rw [if_neg (by omega : ¬ data.length < 6), if_neg (by simp [h0]),
      if_neg (by simp [h2]), if_neg h4] at he
    split at he
    · obtain rfl := (GoResult.err.injEq _ _).mp he
      exact absurd hm (by decide)
    · split at he
      · obtain rfl := (GoResult.err.injEq _ _).mp he
        exact absurd hm (by decide)
      · split at he
        · exact absurd he (by simp)
        · have hfam := decodeICOImage_err_family _ _ _ _ he
          rw [hm] at hfam
          exact absurd hfam (by decide)
  · intro h
    by_cases c1 : data.length < 6
    · exact ⟨.tooShortForHeader, by rw [decodeICO, if_pos c1], rfl⟩
    · by_cases c2 : le16 data 0 ≠ 0
      · exact ⟨.reservedNonzero (le16 data 0),
          by rw [decodeICO, if_neg c1, if_pos c2], rfl⟩
      · by_cases c3 : le16 data 2 ≠ 1
        · exact ⟨.typeNot1 (le16 data 2),
            by rw [decodeICO, if_neg c1, if_neg c2, if_pos c3], rfl⟩
        · by_cases c4 : le16 data 4 = 0
          · exact ⟨.noImages,
              by rw [decodeICO, if_neg c1, if_neg c2, if_neg c3, if_pos c4], rfl⟩
          · exfalso
            rcases h with h | h | h | h
            · exact c1 h
            · exact c2 h
            · exact c3 h
            · exact c4 h

/-- C3 (amended): for a DIB with `headerSize ≥ 40`, `compression` = 0
and a `bitCount` outside {1, 4, 8, 24, 32}, `decodeICOBMP` fails with
`UnsupportedBitDepth` — except that when `bitCount ≤ 8` and the buffer
is too short for the palette (`len(data) < headerSize + 4·paletteSize`)
it fails with the palette-truncation error instead; it never returns
any other error and never decodes successfully. -/
theorem C3_amended_unsupported_bit_depth (data : Bytes) (e : icoEntry)
    (h40 : ¬ data.length < 40) (hhs : ¬ le32 data 0 < 40) (hcmp : le32 data 16 = 0)
    (hb1 : le16 data 14 ≠ 1) (hb4 : le16 data 14 ≠ 4) (hb8 : le16 data 14 ≠ 8)
    (hb24 : le16 data 14 ≠ 24) (hb32 : le16 data 14 ≠ 32) :
    decodeICOBMP data e =
      (if le16 data 14 ≤ 8 ∧
          data.length < le32 data 0 + paletteSizeOf e (le16 data 14) * 4
       then GoResult.err IcoError.tooShortForPalette
       else GoResult.err (IcoError.unsupportedBitDepth (le16 data 14))) := by
  simp only [decodeICOBMP]
  rw [if_neg h40, if_neg hhs, if_neg (by simp [hcmp])]
  by_cases hb : le16 data 14 ≤ 8
  · rw [if_pos hb]
    by_cases hp : data.length < le32 data 0 + paletteSizeOf e (le16 data 14) * 4
    · rw [if_pos hp, if_pos ⟨hb, hp⟩]
    · rw [if_neg hp, if_neg (fun hc => hp hc.2)]
  · rw [if_neg hb, if_neg (fun hc => hb hc.1)]

/-- Witness for the amended C3 on `c3Input` (`bitCount` = 2, buffer too
short for the 4-entry palette): the palette-truncation error results. -/
theorem C3_amended_unsupported_bit_depth_witness :
    (¬ c3Input.length < 40 ∧ ¬ le32 c3Input 0 < 40 ∧ le32 c3Input 16 = 0 ∧
      le16 c3Input 14 ≠ 1 ∧ le16 c3Input 14 ≠ 4 ∧ le16 c3Input 14 ≠ 8 ∧
      le16 c3Input 14 ≠ 24 ∧ le16 c3Input 14 ≠ 32) ∧
    decodeICOBMP c3Input c3Entry =
      (if le16 c3Input 14 ≤ 8 ∧
          c3Input.length < le32 c3Input 0 + paletteSizeOf c3Entry (le16 c3Input 14) * 4
       then GoResult.err IcoError.tooShortForPalette
       else GoResult.err (IcoError.unsupportedBitDepth (le16 c3Input 14))) :=
  ⟨by decide,
    C3_amended_unsupported_bit_depth c3Input c3Entry (by decide) (by decide) (by decide)
      (by decide) (by decide) (by decide) (by decide) (by decide)⟩

theorem getD_mem {α : Type} (l : List α) (i : Nat) (d : α) (h : i < l.length) :
    l.getD i d ∈ l := by
  rw [List.getD_eq_getElem?_getD, List.getElem?_eq_getElem h, Option.getD_some]
  exact List.getElem_mem h

theorem getD_append_left {α : Type} (l₁ l₂ : List α) (j : Nat) (d : α)
    (h : j < l₁.length) : (l₁ ++ l₂).getD j d = l₁.getD j d := by
  rw [List.getD_eq_getElem?_getD, List.getElem?_append, if_pos h,
    ← List.getD_eq_getElem?_getD]

theorem getD_append_self {α : Type} (l₁ : List α) (e : α) (d : α) :
    (l₁ ++ [e]).getD l₁.length d = e := by
  rw [List.getD_eq_getElem?_getD, List.getElem?_append_right (le_refl _)]
  simp

theorem considerEntry_skip (L : Nat) (st : Option icoEntry × Nat) (e : icoEntry)
    (h : ¬ survives L e) : considerEntry L st e = st := by
  rw [considerEntry.eq_def]
  by_cases h1 : e.Offset = 0 ∨ e.Size = 0
  · rw [if_pos h1]
  · rw [if_neg h1]
    unfold survives at h
    push_neg at h h1
    rw [if_pos (h h1.1 h1.2)]

theorem considerEntry_keep (L : Nat) (st : Option icoEntry × Nat) (e : icoEntry)
    (h : survives L e) :
    considerEntry L st e =
      (match st with
       | (none, _) => (some e, e.resolution)
       | (some b, br) =>
         if e.resolution > br then (some e, e.resolution) else (some b, br)) := by
  rw [considerEntry.eq_def, if_neg (not_or.mpr ⟨h.1, h.2.1⟩),
    if_neg (not_lt.mpr h.2.2)]

theorem bestFold_inv (L : Nat) (es : List icoEntry) :
    ((bestFold L es).1 = none → ∀ e ∈ es, ¬ survives L e) ∧
    (∀ b, (bestFold L es).1 = some b →
      (bestFold L es).2 = b.resolution ∧
      ∃ i, i < es.length ∧ es.getD i entryZero = b ∧ survives L b ∧
        (∀ j, j < es.length → survives L (es.getD j entryZero) →
          (es.getD j entryZero).resolution ≤ b.resolution) ∧
        (∀ j, j < i → survives L (es.getD j entryZero) →
          (es.getD j entryZero).resolution < b.resolution)) := by
  induction es using List.reverseRecOn with
  | nil =>
    constructor
    · intro _ e he
      exact absurd he (List.not_mem_nil e)
    · intro b hb
      exact absurd hb (by simp [bestFold])
  | append_singleton es e ih =>
    have hfold : bestFold L (es ++ [e]) = considerEntry L (bestFold L es) e := by
      simp [bestFold, List.foldl_append]
    by_cases hs : survives L e
    · rw [considerEntry_keep L _ e hs] at hfold
      rcases hst : bestFold L es with ⟨sb, sr⟩
      rw [hst] at hfold
      cases sb with
      | none =>
        replace hfold : bestFold L (es ++ [e]) = (some e, e.resolution) := hfold
        constructor
        · intro hn
          rw [hfold] at hn
          exact absurd hn (by simp)
        · intro b hb
          rw [hfold] at hb ⊢
          have hb' : e = b := by simpa using hb
          subst hb'
          refine ⟨rfl, es.length, by simp, getD_append_self es e entryZero, hs, ?_, ?_⟩
          · intro j hj hsj
            rw [List.length_append, List.length_singleton] at hj
            rcases Nat.lt_or_ge j es.length with hjl | hjg
            · rw [getD_append_left es [e] j entryZero hjl] at hsj
              exact absurd hsj (ih.1 (by rw [hst]) _ (getD_mem es j entryZero hjl))
            · have hje : j = es.length := by omega
              subst hje
              rw [getD_append_self es e entryZero]
          · intro j hj hsj
            rw [getD_append_left es [e] j entryZero hj] at hsj
            exact absurd hsj (ih.1 (by rw [hst]) _ (getD_mem es j entryZero hj))
      | some b0 =>
        obtain ⟨hr, i0, hi0, hgd, hsv, hmax, hearly⟩ := ih.2 b0 (by rw [hst])
        rw [hst] at hr
        replace hr : sr = b0.resolution := hr
        replace hfold : bestFold L (es ++ [e]) =
          if e.resolution > sr then (some e, e.resolution) else (some b0, sr) := hfold
        by_cases hgt : e.resolution > sr
        · rw [if_pos hgt] at hfold
          constructor
          · intro hn
            rw [hfold] at hn
            exact absurd hn (by simp)
          · intro b hb
            rw [hfold] at hb ⊢
            have hb' : e = b := by simpa using hb
            subst hb'
            refine ⟨rfl, es.length, by simp, getD_append_self es e entryZero, hs, ?_, ?_⟩
            · intro j hj hsj
              rw [List.length_append, List.length_singleton] at hj
              rcases Nat.lt_or_ge j es.length with hjl | hjg
              · rw [getD_append_left es [e] j entryZero hjl] at hsj ⊢
                have hle := hmax j hjl hsj
                omega
              · have hje : j = es.length := by omega
                subst hje
                rw [getD_append_self es e entryZero]
            · intro j hj hsj
              rw [getD_append_left es [e] j entryZero hj] at hsj ⊢
              have hle := hmax j hj hsj
              omega
        · rw [if_neg hgt] at hfold
          constructor
          · intro hn
            rw [hfold] at hn
            exact absurd hn (by simp)
          · intro b hb
            rw [hfold] at hb ⊢
            have hb' : b0 = b := by simpa using hb
            subst hb'
            refine ⟨hr, i0, ?_, ?_, hsv, ?_, ?_⟩
            · rw [List.length_append, List.length_singleton]
              omega
            · rw [getD_append_left es [e] i0 entryZero hi0]
              exact hgd
            · intro j hj hsj
              rw [List.length_append, List.length_singleton] at hj
              rcases Nat.lt_or_ge j es.length with hjl | hjg
              · rw [getD_append_left es [e] j entryZero hjl] at hsj ⊢
                exact hmax j hjl hsj
              · have hje : j = es.length := by omega
                subst hje
                rw [getD_append_self es e entryZero] at hsj ⊢
                omega
            · intro j hj hsj
              rw [getD_append_left es [e] j entryZero (by omega)] at hsj ⊢
              exact hearly j hj hsj
    · rw [considerEntry_skip L _ e hs] at hfold
      rw [hfold]
      constructor
      · intro hn x hx
        rcases List.mem_append.mp hx with hx | hx
        · exact ih.1 hn x hx
        · rw [List.mem_singleton.mp hx]
          exact hs
      · intro b hb
        obtain ⟨hr, i0, hi0, hgd, hsv, hmax, hearly⟩ := ih.2 b hb
        refine ⟨hr, i0, ?_, ?_, hsv, ?_, ?_⟩
        · rw [List.length_append, List.length_singleton]
          omega
        · rw [getD_append_left es [e] i0 entryZero hi0]
          exact hgd
        · intro j hj hsj
          rw [List.length_append, List.length_singleton] at hj
          rcases Nat.lt_or_ge j es.length with hjl | hjg
          · rw [getD_append_left es [e] j entryZero hjl] at hsj ⊢
            exact hmax j hjl hsj
          · have hje : j = es.length := by omega
            subst hje
            rw [getD_append_self es e entryZero] at hsj
            exact absurd hsj hs
        · intro j hj hsj
          rw [getD_append_left es [e] j entryZero (by omega)] at hsj ⊢
          exact hearly j hj hsj

/-- C2: on a buffer with a valid header and directory, `decodeICO`
selects and decodes the surviving entry of maximal resolution
(`actualWidth × actualHeight`), the earliest directory entry winning
ties; with no surviving entry it fails with the no-valid-entries
error. -/
theorem C2_highest_resolution_selection (p : Bytes → Option Image) (data : Bytes)
    (h6 : ¬ data.length < 6) (h0 : le16 data 0 = 0) (h2 : le16 data 2 = 1)
    (h4 : le16 data 4 ≠ 0) (hdir : ¬ data.length < 6 + le16 data 4 * 16) :
    ((∀ e ∈ parsedEntries data (le16 data 4), ¬ survives data.length e) →
      decodeICO p data = GoResult.err IcoError.noValidEntries) ∧
    (∀ i, isBestAt data.length (parsedEntries data (le16 data 4)) i →
      decodeICO p data =
        decodeICOImage p
          ((data.take (((parsedEntries data (le16 data 4)).getD i entryZero).Offset +
              ((parsedEntries data (le16 data 4)).getD i entryZero).Size)).drop
            ((parsedEntries data (le16 data 4)).getD i entryZero).Offset)
          ((parsedEntries data (le16 data 4)).getD i entryZero)) := by
  have hinv := bestFold_inv data.length (parsedEntries data (le16 data 4))
  constructor
  · intro hnone
    rw [decodeICO, if_neg h6, if_neg (by simp [h0]), if_neg (by simp [h2]),
      if_neg h4, if_neg hdir]
    rcases hbf : bestFold data.length (parsedEntries data (le16 data 4)) with ⟨sb, sr⟩
    cases sb with
    | none => rfl
    | some b =>
      obtain ⟨_, i0, hi0, hgd, hsv, _, _⟩ := hinv.2 b (by rw [hbf])
      exact absurd hsv (hnone b (hgd ▸ getD_mem _ i0 entryZero hi0))
  · intro i hbest
    obtain ⟨hilen, hisv, himax, hiearly⟩ := hbest
    rcases hbf : bestFold data.length (parsedEntries data (le16 data 4)) with ⟨sb, sr⟩
    cases sb with
    | none =>
      exact absurd hisv (hinv.1 (by rw [hbf]) _ (getD_mem _ i entryZero hilen))
    | some b =>
      obtain ⟨hr, i0, hi0, hgd, hsv, hmax, hearly⟩ := hinv.2 b (by rw [hbf])
      have hieq : i0 = i := by
        by_contra hne
        rcases Nat.lt_or_ge i0 i with hlt | hge
        · have hlt1 := hiearly i0 hlt (by rw [hgd]; exact hsv)
          have hle2 := hmax i hilen hisv
          rw [hgd] at hlt1
          omega
        · have hlt' : i < i0 := by omega
          have hlt1 := hearly i hlt' hisv
          have hle2 := himax i0 hi0 (by rw [hgd]; exact hsv)
          rw [hgd] at hle2
          omega
      subst hieq
      rw [decodeICO, if_neg h6, if_neg (by simp [h0]), if_neg (by simp [h2]),
        if_neg h4, if_neg hdir, hbf, hgd]
      have hslice : goSlice data b.Offset (b.Offset + b.Size) =
          some ((data.take (b.Offset + b.Size)).drop b.Offset) := by
        rw [goSlice, if_pos ⟨Nat.le_add_right _ _, hsv.2.2⟩]
      simp only [hslice]

/-- Witness for C2 on `c2Input`: of the two surviving entries (16×16
then 32×32), the larger, second one is selected and decoded. -/
theorem C2_highest_resolution_selection_witness :
    (¬ c2Input.length < 6 ∧ le16 c2Input 0 = 0 ∧ le16 c2Input 2 = 1 ∧
      le16 c2Input 4 ≠ 0 ∧ ¬ c2Input.length < 6 + le16 c2Input 4 * 16 ∧
      isBestAt c2Input.length (parsedEntries c2Input (le16 c2Input 4)) 1) ∧
    decodeICO pngNone c2Input =
      decodeICOImage pngNone
        ((c2Input.take (((parsedEntries c2Input (le16 c2Input 4)).getD 1 entryZero).Offset +
            ((parsedEntries c2Input (le16 c2Input 4)).getD 1 entryZero).Size)).drop
          ((parsedEntries c2Input (le16 c2Input 4)).getD 1 entryZero).Offset)
        ((parsedEntries c2Input (le16 c2Input 4)).getD 1 entryZero) :=
  ⟨by decide,
    (C2_highest_resolution_selection pngNone c2Input (by decide) (by decide) (by decide)
      (by decide) (by decide)).2 1 (by decide)⟩

/-- Sanity check of the bit-depth dispatch: a 48-byte 1-bit DIB with an
8-byte palette and no pixel rows decodes successfully (all rows blank). -/
theorem decodeICOBMP_bit1_dispatch_sanity :
    decodeICOBMP
      ([40, 0, 0, 0, 1, 0, 0, 0, 2, 0, 0, 0, 1, 0, 1, 0, 0, 0, 0, 0] ++
        List.replicate 28 0) c3Entry = GoResult.ok [[zeroRGBA]] := by decide

theorem startsWithChars_append (pre l : List Char) :
    startsWithChars pre (pre ++ l) = true := by
  induction pre with
  | nil => rfl
  | cons a as ih => simp [startsWithChars, ih]

theorem fileScheme_drop (l : List Char) : (fileScheme ++ l).drop 7 = l := by
  rw [show (7 : Nat) = fileScheme.length from rfl, List.drop_left]

/-- C8 (spec-modelled: the `resolveFilePath` implementation is absent
from the source tree): a `file://` reference with a relative path (no
leading `/`) and a non-empty base resolves to the platform join of base
and path, `./`/`../` segments preserved; an absolute path (leading `/`)
is returned unchanged for any base, including the empty one. -/
theorem C8_path_resolution (p b : String) :
    (headIsSlash p.data = false → b ≠ "" →
      resolveFilePath ("file://" ++ p) b = Except.ok (filepathJoin b p)) ∧
    (headIsSlash p.data = true →
      resolveFilePath ("file://" ++ p) b = Except.ok p) := by
  obtain ⟨pl⟩ := p
  have hdata : ("file://" ++ String.mk pl).data = fileScheme ++ pl := by
    rw [String.data_append, show "file://".data = fileScheme from by decide]
  constructor
  · intro hrel hb
    simp only [resolveFilePath, hdata]
    rw [if_pos (startsWithChars_append fileScheme pl), fileScheme_drop,
      if_neg (fun hc => Bool.false_ne_true (hrel ▸ hc)), if_neg hb]
  · intro habs
    simp only [resolveFilePath, hdata]
    rw [if_pos (startsWithChars_append fileScheme pl), fileScheme_drop, if_pos habs]

/-- Witness for C8: `file://icon.png` against base `/base` resolves to
the join, and `file:///abs.png` ignores the base. -/
theorem C8_path_resolution_witness :
    (headIsSlash "icon.png".data = false ∧ ("/base" : String) ≠ "") ∧
    resolveFilePath ("file://" ++ "icon.png") "/base" =
      Except.ok (filepathJoin "/base" "icon.png") :=
  ⟨by decide, (C8_path_resolution "icon.png" "/base").1 (by decide) (by decide)⟩

/-- C9 (spec-modelled): a `file://` reference with a non-empty relative
path and an empty base path fails with `BasePathRequired`, whose
message mentions that a relative path requires a base path; no resolved
path is returned. -/
theorem C9_base_path_required (p : String) (hne : p ≠ "")
    (hrel : headIsSlash p.data = false) :
    resolveFilePath ("file://" ++ p) "" = Except.error ResolveError.BasePathRequired ∧
    ∃ pre suf, ResolveError.BasePathRequired.message =
      pre ++ "relative path requires base path" ++ suf := by
  constructor
  · obtain ⟨pl⟩ := p
    have hdata : ("file://" ++ String.mk pl).data = fileScheme ++ pl := by
      rw [String.data_append, show "file://".data = fileScheme from by decide]
    simp only [resolveFilePath, hdata]
    rw [if_pos (startsWithChars_append fileScheme pl), fileScheme_drop,
      if_neg (fun hc => Bool.false_ne_true (hrel ▸ hc))]
    rfl
  · exact ⟨"", " (no compose working directory)", by decide⟩

/-- Witness for C9: `file://icon.png` with an empty base fails with
`BasePathRequired`. -/
theorem C9_base_path_required_witness :
    (("icon.png" : String) ≠ "" ∧ headIsSlash "icon.png".data = false) ∧
    resolveFilePath ("file://" ++ "icon.png") "" =
      Except.error ResolveError.BasePathRequired :=
  ⟨by decide, (C9_base_path_required "icon.png" (by decide) (by decide)).1⟩
